import Mathlib

/-
Verification of the reference-counting engine of chan-sccp
(the sccp_refcount.c region of the source), against its natural-language
specification.

The engine is embedded shallowly and sequentially: each C function becomes a
Lean function from an explicit registry state to a result, a new state and a
list of observable events (audit-log records, destructor invocations, the
one-shot alive flip).  Machine pointers are modelled as natural numbers with
0 playing the role of NULL; the hash of an address is the address modulo the
prime table size, exactly as in the C macro SCCP_SIMPLE_HASH.  Concurrency
(lock acquisition, atomicity of the refcount operations) is not modelled:
every operation is a whole atomic step, which matches the linearized
behaviour the code aims for.
-/

set_option maxRecDepth 40000

namespace SCCP

/-- A payload address.  0 models the C NULL pointer. -/
abbrev Addr := Nat

/-- SCCP_HASH_PRIME, the fixed prime size of the objects hash table
(config.h default, quoted in the source comment at the SCCP_SIMPLE_HASH
macro: default 563). -/
def SCCP_HASH_PRIME : Nat := 563

/-- SCCP_LIVE_MARKER: the integer value 13 stored in the alive field of a
live object.  The release path decrements the field by this amount, so a
live object transitions 13 to 0. -/
def SCCP_LIVE_MARKER : Int := 13

/-- Modelled from the spec: the fixed bound of the identifier field
(REFCOUNT_INDENTIFIER_SIZE, a macro defined outside src/).  The spec only
says the identifier is a bounded-length label truncated to a fixed bound;
the concrete value is irrelevant to every claim. -/
def REFCOUNT_INDENTIFIER_SIZE : Nat := 32

/-- Number of entries of the obj_info array: participant, conference, event,
channel, linedevice, line, device (CS_TEST_FRAMEWORK disabled), in the
order of the designated initializer, which is the priority order the
shutdown drain walks. -/
def NUM_TYPES : Nat := 7

/-- Observable actions of the engine: the audit-log records (constructor,
retain, release), the one-shot alive transition, and destructor
invocations.  A destructor is identified by a numeric id (the function
pointer); the event also records the object type tag and payload address. -/
inductive Event
  | constructed (ty : Nat) (ptr : Addr)
  | retainEv (ptr : Addr)
  | releaseEv (ptr : Addr)
  | aliveFlip (ptr : Addr)
  | destructorCall (d : Nat) (ty : Nat) (ptr : Addr)
deriving DecidableEq, Repr

/-- struct refcount_object: the header of a managed object.  The per-object
mutex of the non-atomic build is not represented (it has no sequential
content); the data field holds the payload address (obj->data in C is the
flexible array member, whose address is the pointer handed to callers). -/
structure RefCountedObject where
  refcount : Int
  type : Nat
  identifier : String
  len : Nat
  alive : Int
  data : Addr
deriving DecidableEq, Repr

/-- Modelled from the spec: enum sccp_refcount_runstate is declared outside
src/; the spec gives the states Stopped (the initial state, numeric zero,
which is what the alloc guard `if (!runState)` rejects), Running and
Destroyed. -/
inductive RunState
  | stopped
  | running
  | destroyed
deriving DecidableEq, Repr

/-- A hash bucket: the doubly linked list of headers, head first (inserts go
to the head, traversals walk head to tail). -/
abbrev Bucket := List RefCountedObject

/-- The objects hash table.  In C this is a fixed array of SCCP_HASH_PRIME
pointers, NULL until a bucket is lazily created; here an association list
from the hash value to the bucket, a key being present exactly when
objects[hash] is non-NULL (a present bucket may be empty). -/
abbrev Table := List (Nat × Bucket)

/-- objects[hash]: none models a NULL slot. -/
def tableGet : Table → Nat → Option Bucket
  | [], _ => none
  | (k, b) :: rest, h => if k = h then some b else tableGet rest h

/-- Writing objects[hash]: replaces the bucket stored under the key, or
creates the slot when absent. -/
def tableSet : Table → Nat → Bucket → Table
  | [], h, b => [(h, b)]
  | (k, b0) :: rest, h, b => if k = h then (h, b) :: rest else (k, b0) :: tableSet rest h b

/-- Freeing objects[hash] and writing NULL back into the slot. -/
def tableRemove : Table → Nat → Table
  | [], _ => []
  | (k, b0) :: rest, h => if k = h then rest else (k, b0) :: tableRemove rest h

/-- The whole registry: the run state, the obj_info destructor column
(one optional destructor id per type tag) and the objects hash table. -/
structure Registry where
  runState : RunState
  dtors : List (Option Nat)
  objects : Table
deriving DecidableEq, Repr

/-- obj_info[ty].destructor. -/
def dtorAt (dt : List (Option Nat)) (ty : Nat) : Option Nat :=
  dt.getD ty none

/-- Writing obj_info[ty].destructor. -/
def dtorSet (dt : List (Option Nat)) (ty : Nat) (d : Option Nat) : List (Option Nat) :=
  dt.set ty d

/-- The process state before sccp_refcount_init: runState is the static
initializer SCCP_REF_STOPPED, no destructor registered, every bucket slot
NULL. -/
def Registry.initial : Registry :=
  { runState := RunState.stopped, dtors := List.replicate NUM_TYPES none, objects := [] }

/-- sccp_refcount_init: sets runState = SCCP_REF_RUNNING (the lock and
debug-log initialization have no sequential content). -/
def sccp_refcount_init (s : Registry) : Registry :=
  { s with runState := RunState.running }

/-- sccp_copy_string truncates the identifier to the buffer size minus the
terminating NUL. -/
def truncId (identifier : String) : String :=
  identifier.take (REFCOUNT_INDENTIFIER_SIZE - 1)

/-- The bucket scan of sccp_refcount_find_obj: walk the list, stop at the
first entry whose payload address equals ptr; that entry is returned when
its alive field equals SCCP_LIVE_MARKER and otherwise the scan gives up
(the entry is logged as already declared dead and treated as absent). -/
def findInBucket (ptr : Addr) : Bucket → Option RefCountedObject
  | [] => none
  | o :: rest =>
    if o.data = ptr then
      if o.alive = SCCP_LIVE_MARKER then some o else none
    else findInBucket ptr rest

/-- sccp_refcount_find_obj: NULL gives no object; otherwise hash the
address, and when the bucket slot exists scan it. -/
def sccp_refcount_find_obj (s : Registry) (ptr : Addr) : Option RefCountedObject :=
  if ptr = 0 then none
  else
    match tableGet s.objects (ptr % SCCP_HASH_PRIME) with
    | none => none
    | some b => findInBucket ptr b

/-- ATOMIC_INCR / ATOMIC_DECR on obj->refcount act on the object found by
the bucket scan, which is the first entry of the bucket whose payload
address equals ptr; the in-place update is modelled by rebuilding the
bucket with that first matching entry changed. -/
def incRefFirst (ptr : Addr) (d : Int) : Bucket → Bucket
  | [] => []
  | o :: rest =>
    if o.data = ptr then { o with refcount := o.refcount + d } :: rest
    else o :: incRefFirst ptr d rest

/-- ATOMIC_DECR(&obj->alive, SCCP_LIVE_MARKER): the one-shot live to dead
transition, subtracting the live marker from the alive field of the first
entry whose payload address equals ptr. -/
def killFirst (ptr : Addr) : Bucket → Bucket
  | [] => []
  | o :: rest =>
    if o.data = ptr then { o with alive := o.alive - SCCP_LIVE_MARKER } :: rest
    else o :: killFirst ptr rest

/-- The removal traversal of sccp_refcount_remove_obj: unlink the first
entry whose payload address equals ptr and whose alive field no longer
carries the live marker; returns the unlinked entry and the remaining
list. -/
def removeFirstDead (ptr : Addr) : Bucket → Option RefCountedObject × Bucket
  | [] => (none, [])
  | o :: rest =>
    if o.data = ptr ∧ o.alive ≠ SCCP_LIVE_MARKER then (some o, rest)
    else
      let r := removeFirstDead ptr rest
      (r.1, o :: r.2)

/-- Applying an update to the bucket stored at a hash, when the slot
exists. -/
def updateBucket (s : Registry) (hash : Nat) (f : Bucket → Bucket) : Registry :=
  match tableGet s.objects hash with
  | none => s
  | some b => { s with objects := tableSet s.objects hash (f b) }

/-- sccp_refcount_remove_obj: for a non-NULL ptr whose bucket slot exists,
unlink the first dead entry carrying that payload address; when one was
unlinked, fire the destructor registered for its type on the payload (when
one is registered), then zero and free the block (the entry simply
disappears from the state).  When the bucket list became empty, and only
while the registry is running, the bucket slot itself is re-checked and
freed (objects[hash] back to NULL). -/
def sccp_refcount_remove_obj (s : Registry) (ptr : Addr) : Registry × List Event :=
  if ptr = 0 then (s, [])
  else
    let hash := ptr % SCCP_HASH_PRIME
    match tableGet s.objects hash with
    | none => (s, [])
    | some b =>
      let fb := removeFirstDead ptr b
      let s1 : Registry := { s with objects := tableSet s.objects hash fb.2 }
      let evs : List Event :=
        match fb.1 with
        | some o =>
          match dtorAt s.dtors o.type with
          | some d => [Event.destructorCall d o.type ptr]
          | none => []
        | none => []
      ((if fb.2.length = 0 ∧ s1.runState = RunState.running then
          { s1 with objects := tableRemove s1.objects hash }
        else s1), evs)

/-- sccp_refcount_retain: find the object; when found, atomically increment
its refcount and return the same payload pointer (obj->data); when not
found, log the invalid-reference alarm and return NULL (0) leaving the
state untouched. -/
def sccp_refcount_retain (s : Registry) (ptr : Addr) : Addr × Registry × List Event :=
  match sccp_refcount_find_obj s ptr with
  | some obj =>
    (obj.data, updateBucket s (ptr % SCCP_HASH_PRIME) (incRefFirst ptr 1), [Event.retainEv ptr])
  | none => (0, s, [])

/-- sccp_refcount_release: find the object; when found, atomically
decrement its refcount; when the decremented value is zero, decrement the
alive field by the live marker (the one-shot live to dead flip) and call
sccp_refcount_remove_obj, which unlinks, fires the destructor and frees.
Both the found and the not-found path return NULL (0). -/
def sccp_refcount_release (s : Registry) (ptr : Addr) : Addr × Registry × List Event :=
  match sccp_refcount_find_obj s ptr with
  | some obj =>
    let hash := ptr % SCCP_HASH_PRIME
    let newrefcountval := obj.refcount - 1
    let s1 := updateBucket s hash (incRefFirst ptr (-1))
    if newrefcountval = 0 then
      let s2 := updateBucket s1 hash (killFirst ptr)
      let r := sccp_refcount_remove_obj s2 ptr
      (0, r.1, Event.releaseEv ptr :: Event.aliveFlip ptr :: r.2)
    else (0, s1, [Event.releaseEv ptr])
  | none => (0, s, [])

/-- sccp_refcount_object_alloc: reject when the run state is the zero
(Stopped) value tested by `if (!runState)`; otherwise register the given
destructor for the type when none is registered yet, build the header
(refcount 1, alive carrying the live marker once the call completes,
identifier truncated to the fixed bound), hash the payload address and
insert the header at the head of that bucket, creating the bucket slot
when it was NULL.  The payload address paddr stands for the address the
allocator returned; the out-of-memory path is not modelled.  Returns the
payload pointer. -/
def sccp_refcount_object_alloc (s : Registry) (size : Nat) (ty : Nat) (identifier : String)
    (destructor : Option Nat) (paddr : Addr) : Addr × Registry × List Event :=
  if s.runState = RunState.stopped then (0, s, [])
  else
    let dt := if dtorAt s.dtors ty = none then dtorSet s.dtors ty destructor else s.dtors
    let obj : RefCountedObject :=
      { refcount := 1, type := ty, identifier := truncId identifier, len := size,
        alive := SCCP_LIVE_MARKER, data := paddr }
    let hash := paddr % SCCP_HASH_PRIME
    match tableGet s.objects hash with
    | none =>
      (paddr, { s with dtors := dt, objects := tableSet s.objects hash [obj] },
        [Event.constructed ty paddr])
    | some b =>
      (paddr, { s with dtors := dt, objects := tableSet s.objects hash (obj :: b) },
        [Event.constructed ty paddr])

/-- sccp_refcount_replace.  The slot argument is none when the C replaceptr
is NULL, and some v when the slot currently stores v (v = 0 models a NULL
stored value).  The C guard `(&newptr == replaceptr)` compares the address
of the local value parameter newptr with the slot pointer; the parameter
is a fresh local of the call, so the comparison is false for every call
and the guard reduces to the NULL test on replaceptr, which is how it is
modelled.  Otherwise: a non-NULL new pointer is retained first, the slot
is overwritten only when that retain succeeded, and only then is the old
value (when non-NULL) released; a NULL new pointer releases the old value
and stores release's NULL result into the slot.  Returns the slot content
after the call. -/
def sccp_refcount_replace (s : Registry) (slot : Option Addr) (newptr : Addr) :
    Option Addr × Registry × List Event :=
  match slot with
  | none => (none, s, [])
  | some oldPtr =>
    if newptr ≠ 0 then
      let r1 := sccp_refcount_retain s newptr
      if r1.1 ≠ 0 then
        if oldPtr ≠ 0 then
          let r2 := sccp_refcount_release r1.2.1 oldPtr
          (some r1.1, r2.2.1, r1.2.2 ++ r2.2.2)
        else (some r1.1, r1.2.1, r1.2.2)
      else (some oldPtr, r1.2.1, r1.2.2)
    else
      if oldPtr ≠ 0 then
        let r2 := sccp_refcount_release s oldPtr
        (some r2.1, r2.2.1, r2.2.2)
      else (some oldPtr, s, [])

/-- The per-bucket traversal of sccp_refcount_destroy: remove every entry
of the given type, firing the registered destructor of that type on each,
and count the removals; entries of other types are kept in the list (the
bucket they sit in is nevertheless freed by the caller, which leaks
them). -/
def drainTypeFromBucket (dt : Option Nat) (ty : Nat) : Bucket → Bucket × Nat × List Event
  | [] => ([], 0, [])
  | o :: rest =>
    if o.type = ty then
      let r := drainTypeFromBucket dt ty rest
      (r.1, r.2.1 + 1,
        (match dt with
         | some d => [Event.destructorCall d o.type o.data]
         | none => []) ++ r.2.2)
    else
      let r := drainTypeFromBucket dt ty rest
      (o :: r.1, r.2.1, r.2.2)

/-- The bucket loop of sccp_refcount_destroy for one type tag:
`for (hash = 0; hash < SCCP_HASH_PRIME && objects[hash]; hash++)`.
The loop walks increasing hash values and terminates at the first NULL
bucket slot; each visited bucket has its entries of the given type removed
and destroyed, after which the bucket slot itself is freed and set to
NULL, whatever entries of other types remain in it.  fuel is the number
of slots still walkable (SCCP_HASH_PRIME at the start). -/
def destroyHashLoop (dtors : List (Option Nat)) (ty : Nat) :
    Nat → Nat → Table → Table × Nat × List Event
  | 0, _, t => (t, 0, [])
  | fuel + 1, hash, t =>
    if hash < SCCP_HASH_PRIME then
      match tableGet t hash with
      | none => (t, 0, [])
      | some b =>
        let r := drainTypeFromBucket (dtorAt dtors ty) ty b
        let rest := destroyHashLoop dtors ty fuel (hash + 1) (tableRemove t hash)
        (rest.1, r.2.1 + rest.2.1, r.2.2 ++ rest.2.2)
    else (t, 0, [])

/-- sccp_refcount_destroy: set runState to Stopped, then for each type tag
in priority order run the bucket loop, counting every forcefully removed
object (the count the final log line reports), and finally set runState to
Destroyed.  Returns the final registry, the logged count and the
destructor events. -/
def sccp_refcount_destroy (s : Registry) : Registry × Nat × List Event :=
  let s0 : Registry := { s with runState := RunState.stopped }
  let r := (List.range NUM_TYPES).foldl
    (fun acc ty =>
      let r1 := destroyHashLoop s0.dtors ty SCCP_HASH_PRIME 0 acc.1
      (r1.1, acc.2.1 + r1.2.1, acc.2.2 ++ r1.2.2))
    (s0.objects, 0, [])
  ({ runState := RunState.destroyed, dtors := s0.dtors, objects := r.1 }, r.2.1, r.2.2)

/-- N retains in a row at the same address; the Bool records whether every
retain in the sequence returned the same payload pointer. -/
def retainN (s : Registry) (ptr : Addr) : Nat → Registry × Bool
  | 0 => (s, true)
  | n + 1 =>
    let r := sccp_refcount_retain s ptr
    let rest := retainN r.2.1 ptr n
    (rest.1, (r.1 == ptr) && rest.2)

/-- N releases in a row at the same address. -/
def releaseN (s : Registry) (ptr : Addr) : Nat → Registry
  | 0 => s
  | n + 1 => releaseN (sccp_refcount_release s ptr).2.1 ptr n

/-- States the engine actually reaches: bucket keys are unique, every entry
sits in the bucket its payload address hashes to, payload addresses are
non-NULL, and no two entries of one bucket share a payload address. -/
def WF (s : Registry) : Prop :=
  (s.objects.map Prod.fst).Nodup ∧
  ∀ e ∈ s.objects,
    (∀ o ∈ e.2, o.data ≠ 0 ∧ o.data % SCCP_HASH_PRIME = e.1) ∧
    e.2.Pairwise (fun a b => a.data ≠ b.data)

instance (s : Registry) : Decidable (WF s) := by
  unfold WF; infer_instance

/-- Number of destructor invocations an event list records for one payload
address. -/
def dtorCallCount (evs : List Event) (ptr : Addr) : Nat :=
  (evs.filter fun e =>
    match e with
    | Event.destructorCall _ _ q => q = ptr
    | _ => false).length

end SCCP

namespace SCCP

theorem tableGet_mem {t : Table} {h : Nat} {b : Bucket} (hg : tableGet t h = some b) :
    (h, b) ∈ t := by
  induction t with
  | nil => simp [tableGet] at hg
  | cons e rest ih =>
    obtain ⟨k, b0⟩ := e
    by_cases hk : k = h
    · rw [tableGet, if_pos hk] at hg
      subst hk
      cases hg
      exact List.mem_cons_self _ _
    · rw [tableGet, if_neg hk] at hg
      exact List.mem_cons_of_mem _ (ih hg)

theorem tableGet_set_self (t : Table) (h : Nat) (b : Bucket) :
    tableGet (tableSet t h b) h = some b := by
  induction t with
  | nil => simp [tableSet, tableGet]
  | cons e rest ih =>
    obtain ⟨k, b0⟩ := e
    by_cases hk : k = h
    · rw [tableSet, if_pos hk, tableGet, if_pos rfl]
    · rw [tableSet, if_neg hk, tableGet, if_neg hk]
      exact ih

theorem tableGet_set_ne (t : Table) (h h' : Nat) (b : Bucket) (hne : h' ≠ h) :
    tableGet (tableSet t h b) h' = tableGet t h' := by
  have hne' : h ≠ h' := fun hh => hne hh.symm
  induction t with
  | nil => simp [tableSet, tableGet, hne']
  | cons e rest ih =>
    obtain ⟨k, b0⟩ := e
    by_cases hk : k = h
    · subst hk
      simp [tableSet, tableGet, hne']
    · simp [tableSet, tableGet, hk, ih]

theorem tableGet_eq_none_of_not_mem (t : Table) (h : Nat)
    (hnm : h ∉ t.map Prod.fst) : tableGet t h = none := by
  induction t with
  | nil => rfl
  | cons e rest ih =>
    obtain ⟨k, b0⟩ := e
    simp only [List.map_cons, List.mem_cons] at hnm
    push_neg at hnm
    rw [tableGet, if_neg (fun hk => hnm.1 hk.symm)]
    exact ih hnm.2

theorem keys_tableSet (t : Table) (h : Nat) (b b0 : Bucket) (hg : tableGet t h = some b0) :
    (tableSet t h b).map Prod.fst = t.map Prod.fst := by
  induction t with
  | nil => simp [tableGet] at hg
  | cons e rest ih =>
    obtain ⟨k, bb⟩ := e
    by_cases hk : k = h
    · rw [tableSet, if_pos hk]
      simp [hk]
    · rw [tableGet, if_neg hk] at hg
      rw [tableSet, if_neg hk]
      simp [ih hg]

theorem tableGet_remove_ne (t : Table) (h h' : Nat) (hne : h' ≠ h) :
    tableGet (tableRemove t h) h' = tableGet t h' := by
  have hne' : h ≠ h' := fun hh => hne hh.symm
  induction t with
  | nil => rfl
  | cons e rest ih =>
    obtain ⟨k, b0⟩ := e
    by_cases hk : k = h
    · subst hk
      simp [tableRemove, tableGet, hne']
    · simp [tableRemove, tableGet, hk, ih]

theorem tableGet_remove_self (t : Table) (h : Nat) (hnd : (t.map Prod.fst).Nodup) :
    tableGet (tableRemove t h) h = none := by
  induction t with
  | nil => rfl
  | cons e rest ih =>
    obtain ⟨k, b0⟩ := e
    simp only [List.map_cons, List.nodup_cons] at hnd
    by_cases hk : k = h
    · rw [tableRemove, if_pos hk]
      subst hk
      exact tableGet_eq_none_of_not_mem rest k hnd.1
    · rw [tableRemove, if_neg hk, tableGet, if_neg hk]
      exact ih hnd.2

end SCCP

namespace SCCP

theorem findInBucket_decomp (p : Addr) (b : Bucket) (o : RefCountedObject)
    (hfind : findInBucket p b = some o) :
    ∃ u v, b = u ++ o :: v ∧ (∀ x ∈ u, x.data ≠ p) ∧
      o.data = p ∧ o.alive = SCCP_LIVE_MARKER := by
  induction b with
  | nil => simp [findInBucket] at hfind
  | cons x rest ih =>
    by_cases hx : x.data = p
    · by_cases ha : x.alive = SCCP_LIVE_MARKER
      · rw [findInBucket, if_pos hx, if_pos ha] at hfind
        cases hfind
        exact ⟨[], rest, rfl, by simp, hx, ha⟩
      · rw [findInBucket, if_pos hx, if_neg ha] at hfind
        cases hfind
    · rw [findInBucket, if_neg hx] at hfind
      obtain ⟨u, v, hb, hu, ho, ha⟩ := ih hfind
      refine ⟨x :: u, v, by rw [hb, List.cons_append], ?_, ho, ha⟩
      intro y hy
      rcases List.mem_cons.mp hy with h1 | h2
      · rw [h1]; exact hx
      · exact hu y h2

theorem findInBucket_append_first (p : Addr) (u v : Bucket) (o : RefCountedObject)
    (hu : ∀ x ∈ u, x.data ≠ p) (ho : o.data = p) :
    findInBucket p (u ++ o :: v) =
      if o.alive = SCCP_LIVE_MARKER then some o else none := by
  induction u with
  | nil => rw [List.nil_append, findInBucket, if_pos ho]
  | cons x rest ih =>
    rw [List.cons_append, findInBucket, if_neg (hu x (List.mem_cons_self x rest))]
    exact ih (fun y hy => hu y (List.mem_cons_of_mem x hy))

theorem findInBucket_none (p : Addr) (b : Bucket) (hb : ∀ x ∈ b, x.data ≠ p) :
    findInBucket p b = none := by
  induction b with
  | nil => rfl
  | cons x rest ih =>
    rw [findInBucket, if_neg (hb x (List.mem_cons_self x rest))]
    exact ih (fun y hy => hb y (List.mem_cons_of_mem x hy))

theorem findInBucket_skip (q : Addr) (u v : Bucket) (x : RefCountedObject)
    (hx : x.data ≠ q) :
    findInBucket q (u ++ x :: v) = findInBucket q (u ++ v) := by
  induction u with
  | nil => rw [List.nil_append, findInBucket, if_neg hx, List.nil_append]
  | cons y rest ih =>
    rw [List.cons_append, List.cons_append, findInBucket, findInBucket]
    by_cases hy : y.data = q
    · rw [if_pos hy, if_pos hy]
    · rw [if_neg hy, if_neg hy, ih]

theorem findInBucket_of_mem (p : Addr) (b : Bucket) (o : RefCountedObject)
    (hdist : b.Pairwise (fun a c => a.data ≠ c.data)) (hmem : o ∈ b) (ho : o.data = p) :
    findInBucket p b = if o.alive = SCCP_LIVE_MARKER then some o else none := by
  induction b with
  | nil => cases hmem
  | cons x rest ih =>
    rcases List.mem_cons.mp hmem with h1 | h2
    · subst h1
      rw [findInBucket, if_pos ho]
    · have hx : x.data ≠ p := by
        have hxo : x.data ≠ o.data := (List.pairwise_cons.mp hdist).1 o h2
        rw [ho] at hxo
        exact hxo
      rw [findInBucket, if_neg hx]
      exact ih (List.pairwise_cons.mp hdist).2 h2

theorem incRefFirst_append (p : Addr) (d : Int) (u v : Bucket) (o : RefCountedObject)
    (hu : ∀ x ∈ u, x.data ≠ p) (ho : o.data = p) :
    incRefFirst p d (u ++ o :: v) = u ++ { o with refcount := o.refcount + d } :: v := by
  induction u with
  | nil => rw [List.nil_append, incRefFirst, if_pos ho, List.nil_append]
  | cons x rest ih =>
    rw [List.cons_append, incRefFirst, if_neg (hu x (List.mem_cons_self x rest)),
      ih (fun y hy => hu y (List.mem_cons_of_mem x hy)), List.cons_append]

theorem killFirst_append (p : Addr) (u v : Bucket) (o : RefCountedObject)
    (hu : ∀ x ∈ u, x.data ≠ p) (ho : o.data = p) :
    killFirst p (u ++ o :: v) = u ++ { o with alive := o.alive - SCCP_LIVE_MARKER } :: v := by
  induction u with
  | nil => rw [List.nil_append, killFirst, if_pos ho, List.nil_append]
  | cons x rest ih =>
    rw [List.cons_append, killFirst, if_neg (hu x (List.mem_cons_self x rest)),
      ih (fun y hy => hu y (List.mem_cons_of_mem x hy)), List.cons_append]

theorem removeFirstDead_append (p : Addr) (u v : Bucket) (o : RefCountedObject)
    (hu : ∀ x ∈ u, x.data ≠ p) (ho : o.data = p) (ha : o.alive ≠ SCCP_LIVE_MARKER) :
    removeFirstDead p (u ++ o :: v) = (some o, u ++ v) := by
  induction u with
  | nil =>
    rw [List.nil_append, removeFirstDead, if_pos ⟨ho, ha⟩, List.nil_append]
  | cons x rest ih =>
    have hx : ¬ (x.data = p ∧ x.alive ≠ SCCP_LIVE_MARKER) :=
      fun hc => hu x (List.mem_cons_self x rest) hc.1
    rw [List.cons_append, removeFirstDead, if_neg hx,
      ih (fun y hy => hu y (List.mem_cons_of_mem x hy))]
    rw [List.cons_append]

end SCCP

namespace SCCP

theorem find_anatomy (s : Registry) (p : Addr) (o : RefCountedObject)
    (hfind : sccp_refcount_find_obj s p = some o) :
    p ≠ 0 ∧ ∃ u v, tableGet s.objects (p % SCCP_HASH_PRIME) = some (u ++ o :: v) ∧
      (∀ x ∈ u, x.data ≠ p) ∧ o.data = p ∧ o.alive = SCCP_LIVE_MARKER := by
  by_cases hp : p = 0
  · simp [sccp_refcount_find_obj, hp] at hfind
  · rcases hg : tableGet s.objects (p % SCCP_HASH_PRIME) with _ | b
    · simp [sccp_refcount_find_obj, hp, hg] at hfind
    · have hfb : findInBucket p b = some o := by
        simpa [sccp_refcount_find_obj, hp, hg] using hfind
      obtain ⟨u, v, hb, hu, ho, ha⟩ := findInBucket_decomp p b o hfb
      subst hb
      exact ⟨hp, u, v, rfl, hu, ho, ha⟩

theorem retain_not_found (s : Registry) (p : Addr)
    (h : sccp_refcount_find_obj s p = none) :
    sccp_refcount_retain s p = (0, s, []) := by
  simp [sccp_refcount_retain, h]

theorem release_not_found (s : Registry) (p : Addr)
    (h : sccp_refcount_find_obj s p = none) :
    sccp_refcount_release s p = (0, s, []) := by
  simp [sccp_refcount_release, h]

theorem retain_found (s : Registry) (p : Addr) (o : RefCountedObject)
    (hfind : sccp_refcount_find_obj s p = some o) :
    (sccp_refcount_retain s p).1 = p ∧
    (sccp_refcount_retain s p).2.2 = [Event.retainEv p] ∧
    sccp_refcount_find_obj (sccp_refcount_retain s p).2.1 p =
      some { o with refcount := o.refcount + 1 } ∧
    (∀ q, q ≠ p → sccp_refcount_find_obj (sccp_refcount_retain s p).2.1 q =
      sccp_refcount_find_obj s q) ∧
    (sccp_refcount_retain s p).2.1.dtors = s.dtors ∧
    (sccp_refcount_retain s p).2.1.runState = s.runState ∧
    (sccp_refcount_retain s p).2.1.objects.map Prod.fst = s.objects.map Prod.fst := by
  obtain ⟨hp, u, v, hg, hu, ho, ha⟩ := find_anatomy s p o hfind
  have hretain : sccp_refcount_retain s p =
      (o.data,
        { s with
            objects := tableSet s.objects (p % SCCP_HASH_PRIME)
              (u ++ { o with refcount := o.refcount + 1 } :: v) },
        [Event.retainEv p]) := by
    simp only [sccp_refcount_retain, hfind, updateBucket, hg,
      incRefFirst_append p 1 u v o hu ho]
  rw [hretain]
  have ho' : ({ o with refcount := o.refcount + 1 } : RefCountedObject).data = p := ho
  refine ⟨ho, rfl, ?_, ?_, rfl, rfl, keys_tableSet _ _ _ _ hg⟩
  · simp only [sccp_refcount_find_obj, if_neg hp, tableGet_set_self]
    rw [findInBucket_append_first p u v _ hu ho', if_pos ha]
  · intro q hq
    by_cases hq0 : q = 0
    · subst hq0
      simp [sccp_refcount_find_obj]
    · simp only [sccp_refcount_find_obj, if_neg hq0]
      by_cases hqh : q % SCCP_HASH_PRIME = p % SCCP_HASH_PRIME
      · simp only [hqh, tableGet_set_self, hg]
        rw [findInBucket_skip q u v _ (fun hh => hq (hh.symm.trans ho')),
          findInBucket_skip q u v o (fun hh => hq (hh.symm.trans ho))]
      · rw [tableGet_set_ne _ _ _ _ hqh]

theorem dtorAt_dtorSet_self (dt : List (Option Nat)) (ty : Nat) (d : Option Nat)
    (hty : ty < dt.length) : dtorAt (dtorSet dt ty d) ty = d := by
  induction dt generalizing ty with
  | nil => simp at hty
  | cons a rest ih =>
    cases ty with
    | zero => simp [dtorAt, dtorSet]
    | succ n =>
      have hty' : n < rest.length := by simpa using hty
      simpa [dtorAt, dtorSet] using ih n hty'

end SCCP

namespace SCCP

theorem tableSet_tableSet (t : Table) (h : Nat) (b1 b2 : Bucket) :
    tableSet (tableSet t h b1) h b2 = tableSet t h b2 := by
  induction t with
  | nil => simp [tableSet]
  | cons e rest ih =>
    obtain ⟨k, b0⟩ := e
    by_cases hk : k = h
    · subst hk
      simp [tableSet]
    · simp [tableSet, hk, ih]

theorem release_pos (s : Registry) (p : Addr) (o : RefCountedObject)
    (hfind : sccp_refcount_find_obj s p = some o) (hne : o.refcount - 1 ≠ 0) :
    (sccp_refcount_release s p).1 = 0 ∧
    (sccp_refcount_release s p).2.2 = [Event.releaseEv p] ∧
    sccp_refcount_find_obj (sccp_refcount_release s p).2.1 p =
      some { o with refcount := o.refcount - 1 } ∧
    (∀ q, q ≠ p → sccp_refcount_find_obj (sccp_refcount_release s p).2.1 q =
      sccp_refcount_find_obj s q) ∧
    (sccp_refcount_release s p).2.1.dtors = s.dtors ∧
    (sccp_refcount_release s p).2.1.runState = s.runState ∧
    (sccp_refcount_release s p).2.1.objects.map Prod.fst = s.objects.map Prod.fst := by
  obtain ⟨hp, u, v, hg, hu, ho, ha⟩ := find_anatomy s p o hfind
  have hsub : o.refcount + (-1) = o.refcount - 1 := by ring
  have hinc : incRefFirst p (-1) (u ++ o :: v) =
      u ++ { o with refcount := o.refcount - 1 } :: v := by
    rw [incRefFirst_append p (-1) u v o hu ho, hsub]
  have hrel : sccp_refcount_release s p =
      (0,
        { s with
            objects := tableSet s.objects (p % SCCP_HASH_PRIME)
              (u ++ { o with refcount := o.refcount - 1 } :: v) },
        [Event.releaseEv p]) := by
    simp only [sccp_refcount_release, hfind, updateBucket, hg, hinc]
    rw [if_neg hne]
  rw [hrel]
  have ho' : ({ o with refcount := o.refcount - 1 } : RefCountedObject).data = p := ho
  refine ⟨rfl, rfl, ?_, ?_, rfl, rfl, keys_tableSet _ _ _ _ hg⟩
  · simp only [sccp_refcount_find_obj, if_neg hp, tableGet_set_self]
    rw [findInBucket_append_first p u v _ hu ho', if_pos ha]
  · intro q hq
    by_cases hq0 : q = 0
    · subst hq0
      simp [sccp_refcount_find_obj]
    · simp only [sccp_refcount_find_obj, if_neg hq0]
      by_cases hqh : q % SCCP_HASH_PRIME = p % SCCP_HASH_PRIME
      · simp only [hqh, tableGet_set_self, hg]
        rw [findInBucket_skip q u v _ (fun hh => hq (hh.symm.trans ho')),
          findInBucket_skip q u v o (fun hh => hq (hh.symm.trans ho))]
      · rw [tableGet_set_ne _ _ _ _ hqh]

end SCCP

namespace SCCP

theorem release_zero (s : Registry) (p : Addr) (o : RefCountedObject)
    (hWF : WF s) (hfind : sccp_refcount_find_obj s p = some o)
    (h1 : o.refcount - 1 = 0) :
    (sccp_refcount_release s p).1 = 0 ∧
    (sccp_refcount_release s p).2.2 =
      Event.releaseEv p :: Event.aliveFlip p ::
        (match dtorAt s.dtors o.type with
         | some d => [Event.destructorCall d o.type p]
         | none => []) ∧
    sccp_refcount_find_obj (sccp_refcount_release s p).2.1 p = none ∧
    (∀ q, q ≠ p → sccp_refcount_find_obj (sccp_refcount_release s p).2.1 q =
      sccp_refcount_find_obj s q) ∧
    (sccp_refcount_release s p).2.1.dtors = s.dtors ∧
    (sccp_refcount_release s p).2.1.runState = s.runState ∧
    (∀ b0, tableGet s.objects (p % SCCP_HASH_PRIME) = some b0 → b0.length = 1 →
      s.runState = RunState.running →
      tableGet (sccp_refcount_release s p).2.1.objects (p % SCCP_HASH_PRIME) = none) ∧
    (∀ b0, tableGet s.objects (p % SCCP_HASH_PRIME) = some b0 → b0.length ≠ 1 →
      ∃ b2, tableGet (sccp_refcount_release s p).2.1.objects (p % SCCP_HASH_PRIME) = some b2 ∧
        b2.length + 1 = b0.length ∧ ∀ x ∈ b2, x.data ≠ p) := by
  obtain ⟨hp, u, v, hg, hu, ho, ha⟩ := find_anatomy s p o hfind
  have hvp : ∀ x ∈ v, x.data ≠ p := by
    have hmem := tableGet_mem hg
    have hpair := (hWF.2 _ hmem).2
    have h2 := (List.pairwise_append.mp hpair).2.1
    have h3 := (List.pairwise_cons.mp h2).1
    intro x hx hxp
    exact (h3 x hx) (ho.trans hxp.symm)
  have huvp : ∀ x ∈ u ++ v, x.data ≠ p := by
    intro x hx
    rcases List.mem_append.mp hx with hx1 | hx2
    · exact hu x hx1
    · exact hvp x hx2
  have hsub : o.refcount + (-1) = o.refcount - 1 := by ring
  have hinc : incRefFirst p (-1) (u ++ o :: v) =
      u ++ { o with refcount := o.refcount - 1 } :: v := by
    rw [incRefFirst_append p (-1) u v o hu ho, hsub]
  have hkill : killFirst p (u ++ { o with refcount := o.refcount - 1 } :: v) =
      u ++ { o with refcount := o.refcount - 1, alive := o.alive - SCCP_LIVE_MARKER } :: v :=
    killFirst_append p u v _ hu ho
  have ho2a : ({ o with refcount := o.refcount - 1, alive := o.alive - SCCP_LIVE_MARKER } :
      RefCountedObject).alive ≠ SCCP_LIVE_MARKER := by
    show o.alive - SCCP_LIVE_MARKER ≠ SCCP_LIVE_MARKER
    rw [ha]
    decide
  have hrem : removeFirstDead p
      (u ++ { o with refcount := o.refcount - 1, alive := o.alive - SCCP_LIVE_MARKER } :: v) =
      (some { o with refcount := o.refcount - 1, alive := o.alive - SCCP_LIVE_MARKER },
        u ++ v) :=
    removeFirstDead_append p u v _ hu ho ho2a
  have hkeys : ((tableSet s.objects (p % SCCP_HASH_PRIME) (u ++ v)).map Prod.fst).Nodup := by
    rw [keys_tableSet _ _ _ _ hg]
    exact hWF.1
  have hrel : sccp_refcount_release s p =
      (0,
        (if (u ++ v).length = 0 ∧ s.runState = RunState.running then
          { s with
              objects := tableRemove (tableSet s.objects (p % SCCP_HASH_PRIME) (u ++ v))
                (p % SCCP_HASH_PRIME) }
        else
          { s with objects := tableSet s.objects (p % SCCP_HASH_PRIME) (u ++ v) }),
        Event.releaseEv p :: Event.aliveFlip p ::
          (match dtorAt s.dtors o.type with
           | some d => [Event.destructorCall d o.type p]
           | none => [])) := by
    simp only [sccp_refcount_release, hfind, updateBucket, hg, hinc, tableGet_set_self,
      hkill, sccp_refcount_remove_obj, hrem, tableSet_tableSet]
    rw [if_pos h1, if_neg hp]
  rw [hrel]
  refine ⟨rfl, rfl, ?_, ?_, ?_, ?_, ?_, ?_⟩
  · -- the released address is gone
    by_cases hc : (u ++ v).length = 0 ∧ s.runState = RunState.running
    · rw [if_pos hc]
      simp only [sccp_refcount_find_obj, if_neg hp, tableGet_remove_self _ _ hkeys]
    · rw [if_neg hc]
      simp only [sccp_refcount_find_obj, if_neg hp, tableGet_set_self]
      exact findInBucket_none p (u ++ v) huvp
  · -- every other address is unaffected
    intro q hq
    by_cases hq0 : q = 0
    · subst hq0
      simp [sccp_refcount_find_obj]
    · by_cases hc : (u ++ v).length = 0 ∧ s.runState = RunState.running
      · rw [if_pos hc]
        simp only [sccp_refcount_find_obj, if_neg hq0]
        by_cases hqh : q % SCCP_HASH_PRIME = p % SCCP_HASH_PRIME
        · rw [hqh]
          simp only [tableGet_remove_self _ _ hkeys, hg]
          have hu0 : u = [] := by
            have := hc.1
            rw [List.length_append] at this
            exact List.eq_nil_of_length_eq_zero (by omega)
          have hv0 : v = [] := by
            have := hc.1
            rw [List.length_append] at this
            exact List.eq_nil_of_length_eq_zero (by omega)
          subst hu0
          subst hv0
          exact (findInBucket_none q ([] ++ o :: []) (by
            intro x hx
            simp only [List.nil_append, List.mem_singleton] at hx
            subst hx
            exact fun hh => hq (hh.symm.trans ho))).symm
        · rw [tableGet_remove_ne _ _ _ hqh, tableGet_set_ne _ _ _ _ hqh]
      · rw [if_neg hc]
        simp only [sccp_refcount_find_obj, if_neg hq0]
        by_cases hqh : q % SCCP_HASH_PRIME = p % SCCP_HASH_PRIME
        · rw [hqh]
          simp only [tableGet_set_self, hg]
          exact (findInBucket_skip q u v o (fun hh => hq (hh.symm.trans ho))).symm
        · rw [tableGet_set_ne _ _ _ _ hqh]
  · by_cases hc : (u ++ v).length = 0 ∧ s.runState = RunState.running
    · rw [if_pos hc]
    · rw [if_neg hc]
  · by_cases hc : (u ++ v).length = 0 ∧ s.runState = RunState.running
    · rw [if_pos hc]
    · rw [if_neg hc]
  · -- the bucket slot is freed when the removal left it empty while running
    intro b0 hg0 hlen hrun
    have hb0 : b0 = u ++ o :: v := by
      have := hg0.symm.trans hg
      injection this
    have hlen' : (u ++ v).length = 0 := by
      subst hb0
      rw [List.length_append, List.length_cons] at hlen
      rw [List.length_append]
      omega
    rw [if_pos ⟨hlen', hrun⟩]
    exact tableGet_remove_self _ _ hkeys
  · -- otherwise the bucket stays, one entry shorter, with the address gone
    intro b0 hg0 hlen
    have hb0 : b0 = u ++ o :: v := by
      have := hg0.symm.trans hg
      injection this
    have hlen' : (u ++ v).length ≠ 0 := by
      subst hb0
      rw [List.length_append, List.length_cons] at hlen
      rw [List.length_append]
      omega
    rw [if_neg (fun hc => hlen' hc.1)]
    refine ⟨u ++ v, tableGet_set_self _ _ _, ?_, huvp⟩
    subst hb0
    simp only [List.length_append, List.length_cons]
    omega

end SCCP

namespace SCCP

theorem mem_tableSet {e : Nat × Bucket} {t : Table} {h : Nat} {b : Bucket}
    (hmem : e ∈ tableSet t h b) : e = (h, b) ∨ e ∈ t := by
  induction t with
  | nil =>
    exact Or.inl (by simpa [tableSet] using hmem)
  | cons e0 rest ih =>
    obtain ⟨k, b0⟩ := e0
    by_cases hk : k = h
    · subst hk
      rcases List.mem_cons.mp (by simpa [tableSet] using hmem) with h1 | h2
      · exact Or.inl h1
      · exact Or.inr (List.mem_cons_of_mem _ h2)
    · rcases List.mem_cons.mp (by simpa [tableSet, hk] using hmem) with h1 | h2
      · exact Or.inr (by rw [h1]; exact List.mem_cons_self _ _)
      · rcases ih h2 with h3 | h4
        · exact Or.inl h3
        · exact Or.inr (List.mem_cons_of_mem _ h4)

theorem pairwise_data_replace {u v : Bucket} {o o' : RefCountedObject}
    (hdata : o'.data = o.data)
    (hp : (u ++ o :: v).Pairwise (fun a c => a.data ≠ c.data)) :
    (u ++ o' :: v).Pairwise (fun a c => a.data ≠ c.data) := by
  rw [List.pairwise_append] at hp
  obtain ⟨h1, h2, h3⟩ := hp
  rw [List.pairwise_cons] at h2
  rw [List.pairwise_append]
  refine ⟨h1, ?_, ?_⟩
  · rw [List.pairwise_cons]
    refine ⟨?_, h2.2⟩
    intro y hy
    rw [hdata]
    exact h2.1 y hy
  · intro x hx y hy
    rcases List.mem_cons.mp hy with hy1 | hy2
    · subst hy1
      rw [hdata]
      exact h3 x hx o (List.mem_cons_self _ _)
    · exact h3 x hx y (List.mem_cons_of_mem _ hy2)

theorem WF_retain (s : Registry) (p : Addr) (hWF : WF s) :
    WF (sccp_refcount_retain s p).2.1 := by
  rcases hfind : sccp_refcount_find_obj s p with _ | o
  · rw [retain_not_found s p hfind]
    exact hWF
  · obtain ⟨hp, u, v, hg, hu, ho, ha⟩ := find_anatomy s p o hfind
    have hretain2 : (sccp_refcount_retain s p).2.1 =
        { s with
            objects := tableSet s.objects (p % SCCP_HASH_PRIME)
              (u ++ { o with refcount := o.refcount + 1 } :: v) } := by
      simp only [sccp_refcount_retain, hfind, updateBucket, hg,
        incRefFirst_append p 1 u v o hu ho]
    rw [hretain2]
    have hbprops := hWF.2 _ (tableGet_mem hg)
    constructor
    · show ((tableSet s.objects (p % SCCP_HASH_PRIME) _).map Prod.fst).Nodup
      rw [keys_tableSet _ _ _ _ hg]
      exact hWF.1
    · intro e he
      rcases mem_tableSet he with he1 | he2
      · subst he1
        constructor
        · intro x hx
          rcases List.mem_append.mp hx with hx1 | hx2
          · exact hbprops.1 x (List.mem_append.mpr (Or.inl hx1))
          · rcases List.mem_cons.mp hx2 with hx3 | hx4
            · subst hx3
              exact hbprops.1 o (List.mem_append.mpr (Or.inr (List.mem_cons_self _ _)))
            · exact hbprops.1 x (List.mem_append.mpr (Or.inr (List.mem_cons_of_mem _ hx4)))
        · exact pairwise_data_replace
            (show ({ o with refcount := o.refcount + 1 } : RefCountedObject).data = o.data
              from rfl) hbprops.2
      · exact hWF.2 e he2

theorem release_pres (s : Registry) (p q : Addr) (hWF : WF s) (hq : q ≠ p) :
    sccp_refcount_find_obj (sccp_refcount_release s p).2.1 q =
      sccp_refcount_find_obj s q := by
  rcases hfind : sccp_refcount_find_obj s p with _ | o
  · rw [release_not_found s p hfind]
  · by_cases h1 : o.refcount - 1 = 0
    · exact (release_zero s p o hWF hfind h1).2.2.2.1 q hq
    · exact (release_pos s p o hfind h1).2.2.2.1 q hq

theorem releaseEv_head (s : Registry) (p : Addr) (o : RefCountedObject)
    (hfind : sccp_refcount_find_obj s p = some o) :
    ∃ evs, (sccp_refcount_release s p).2.2 = Event.releaseEv p :: evs := by
  simp only [sccp_refcount_release, hfind]
  by_cases h1 : o.refcount - 1 = 0
  · rw [if_pos h1]
    exact ⟨_, rfl⟩
  · rw [if_neg h1]
    exact ⟨[], rfl⟩

theorem release_null (t : Registry) (q : Addr) : (sccp_refcount_release t q).1 = 0 := by
  rcases hf : sccp_refcount_find_obj t q with _ | o
  · rw [release_not_found t q hf]
  · simp only [sccp_refcount_release, hf]
    by_cases h1 : o.refcount - 1 = 0
    · rw [if_pos h1]
    · rw [if_neg h1]

end SCCP

namespace SCCP

/-- C1: the destructor registered for an object's type is invoked exactly
once, on the release whose decrement drives the refcount from 1 to 0; that
release performs the one-shot alive flip (the single aliveFlip event) and
fires the destructor exactly once, and afterwards a retain or a release on
the same payload address returns the null sentinel, leaves the registry
untouched and fires no destructor; a release whose decrement result is
nonzero fires no destructor. -/
theorem C1_destructor_exactly_once (s : Registry) (p : Addr) (o : RefCountedObject) (d : Nat)
    (hWF : WF s) (hfind : sccp_refcount_find_obj s p = some o)
    (hd : dtorAt s.dtors o.type = some d) :
    (o.refcount = 1 →
      (sccp_refcount_release s p).2.2 =
        [Event.releaseEv p, Event.aliveFlip p, Event.destructorCall d o.type p] ∧
      dtorCallCount (sccp_refcount_release s p).2.2 p = 1 ∧
      sccp_refcount_retain (sccp_refcount_release s p).2.1 p =
        (0, (sccp_refcount_release s p).2.1, []) ∧
      sccp_refcount_release (sccp_refcount_release s p).2.1 p =
        (0, (sccp_refcount_release s p).2.1, [])) ∧
    (o.refcount ≠ 1 → dtorCallCount (sccp_refcount_release s p).2.2 p = 0) := by
  constructor
  · intro h1
    have h1' : o.refcount - 1 = 0 := by omega
    obtain ⟨-, hev, hnone, -, -, -, -, -⟩ := release_zero s p o hWF hfind h1'
    simp only [hd] at hev
    refine ⟨hev, ?_, retain_not_found _ _ hnone, release_not_found _ _ hnone⟩
    rw [hev]
    simp [dtorCallCount]
  · intro h1
    have h1' : o.refcount - 1 ≠ 0 := by omega
    obtain ⟨-, hev, -, -, -, -, -⟩ := release_pos s p o hfind h1'
    rw [hev]
    simp [dtorCallCount]

/-- C2: release always returns the null sentinel; on a found object it
decrements the refcount; exactly when the decremented value is zero it
performs the alive flip, unlinks the header from its bucket, fires the
registered destructor (when one is registered), frees the entry, and frees
the bucket slot when the removal emptied it while the registry is running;
when the decremented value is nonzero only that object's refcount changes:
every other address still resolves as before, no event beyond the release
record is emitted, no destructor runs, and no bucket is created or
freed. -/
theorem C2_release_contract (s : Registry) (p : Addr) (o : RefCountedObject)
    (hWF : WF s) (hfind : sccp_refcount_find_obj s p = some o) :
    (∀ (t : Registry) (q : Addr), (sccp_refcount_release t q).1 = 0) ∧
    (o.refcount - 1 ≠ 0 →
      (sccp_refcount_release s p).2.2 = [Event.releaseEv p] ∧
      sccp_refcount_find_obj (sccp_refcount_release s p).2.1 p =
        some { o with refcount := o.refcount - 1 } ∧
      (∀ q, q ≠ p → sccp_refcount_find_obj (sccp_refcount_release s p).2.1 q =
        sccp_refcount_find_obj s q) ∧
      (sccp_refcount_release s p).2.1.dtors = s.dtors ∧
      (sccp_refcount_release s p).2.1.runState = s.runState ∧
      (sccp_refcount_release s p).2.1.objects.map Prod.fst = s.objects.map Prod.fst) ∧
    (o.refcount - 1 = 0 →
      (sccp_refcount_release s p).2.2 =
        Event.releaseEv p :: Event.aliveFlip p ::
          (match dtorAt s.dtors o.type with
           | some d => [Event.destructorCall d o.type p]
           | none => []) ∧
      sccp_refcount_find_obj (sccp_refcount_release s p).2.1 p = none ∧
      (∀ q, q ≠ p → sccp_refcount_find_obj (sccp_refcount_release s p).2.1 q =
        sccp_refcount_find_obj s q) ∧
      (∀ b0, tableGet s.objects (p % SCCP_HASH_PRIME) = some b0 → b0.length = 1 →
        s.runState = RunState.running →
        tableGet (sccp_refcount_release s p).2.1.objects (p % SCCP_HASH_PRIME) = none) ∧
      (∀ b0, tableGet s.objects (p % SCCP_HASH_PRIME) = some b0 → b0.length ≠ 1 →
        ∃ b2, tableGet (sccp_refcount_release s p).2.1.objects (p % SCCP_HASH_PRIME) =
            some b2 ∧
          b2.length + 1 = b0.length ∧ ∀ x ∈ b2, x.data ≠ p)) := by
  refine ⟨release_null, ?_, ?_⟩
  · intro hne
    obtain ⟨-, hev, hfp, hq, hd, hr, hk⟩ := release_pos s p o hfind hne
    exact ⟨hev, hfp, hq, hd, hr, hk⟩
  · intro h1
    obtain ⟨-, hev, hfp, hq, -, -, hsing, hrest⟩ := release_zero s p o hWF hfind h1
    exact ⟨hev, hfp, hq, hsing, hrest⟩

/-- C10: the public operations are total on the NULL pointer: lookup of the
null address finds nothing, retain and release of the null address return
the null sentinel with the registry unchanged and no event, and replace
with a null slot pointer returns at once doing nothing. -/
theorem C10_null_handling (s : Registry) (v : Addr) :
    sccp_refcount_find_obj s 0 = none ∧
    sccp_refcount_retain s 0 = (0, s, []) ∧
    sccp_refcount_release s 0 = (0, s, []) ∧
    sccp_refcount_replace s none v = (none, s, []) := by
  have hf : sccp_refcount_find_obj s 0 = none := by
    simp [sccp_refcount_find_obj]
  exact ⟨hf, retain_not_found s 0 hf, release_not_found s 0 hf, rfl⟩

end SCCP

namespace SCCP

/-- C6: replace with a distinct new value retains the new object first and
releases the old one only afterwards: with a null old value and a
retainable new value it is a pure store of the retained pointer; when the
retain fails nothing changes at all (slot kept, registry untouched, no
release of the old value); when both are non-null the slot receives the
new pointer, the event trace opens with the retain of the new value and
the release of the old value comes after it, and the new object's
refcount ends up incremented; a null new value degenerates to a pure
release of the old value with the null result stored back. -/
theorem C6_replace_order (s : Registry) (oldPtr newPtr : Addr) (o : RefCountedObject)
    (hWF : WF s) (hne : newPtr ≠ oldPtr) :
    (oldPtr = 0 → sccp_refcount_find_obj s newPtr = some o →
      sccp_refcount_replace s (some oldPtr) newPtr =
        (some newPtr, (sccp_refcount_retain s newPtr).2.1, [Event.retainEv newPtr]) ∧
      sccp_refcount_find_obj (sccp_refcount_retain s newPtr).2.1 newPtr =
        some { o with refcount := o.refcount + 1 }) ∧
    (newPtr ≠ 0 → sccp_refcount_find_obj s newPtr = none →
      sccp_refcount_replace s (some oldPtr) newPtr = (some oldPtr, s, [])) ∧
    (oldPtr ≠ 0 → sccp_refcount_find_obj s newPtr = some o →
      (sccp_refcount_replace s (some oldPtr) newPtr).1 = some newPtr ∧
      (sccp_refcount_replace s (some oldPtr) newPtr).2.1 =
        (sccp_refcount_release (sccp_refcount_retain s newPtr).2.1 oldPtr).2.1 ∧
      (sccp_refcount_replace s (some oldPtr) newPtr).2.2 =
        Event.retainEv newPtr ::
          (sccp_refcount_release (sccp_refcount_retain s newPtr).2.1 oldPtr).2.2 ∧
      sccp_refcount_find_obj (sccp_refcount_replace s (some oldPtr) newPtr).2.1 newPtr =
        some { o with refcount := o.refcount + 1 } ∧
      (∀ oo, sccp_refcount_find_obj s oldPtr = some oo →
        ∃ evs, (sccp_refcount_replace s (some oldPtr) newPtr).2.2 =
          Event.retainEv newPtr :: evs ∧ Event.releaseEv oldPtr ∈ evs)) ∧
    (newPtr = 0 → oldPtr ≠ 0 →
      sccp_refcount_replace s (some oldPtr) newPtr =
        (some 0, (sccp_refcount_release s oldPtr).2.1,
          (sccp_refcount_release s oldPtr).2.2)) := by
  refine ⟨?_, ?_, ?_, ?_⟩
  · intro hold0 hfindN
    have hnew0 : newPtr ≠ 0 := (find_anatomy s newPtr o hfindN).1
    obtain ⟨hr1, hrev, hrfind, -, -, -, -⟩ := retain_found s newPtr o hfindN
    subst hold0
    refine ⟨?_, hrfind⟩
    simp only [sccp_refcount_replace]
    rw [if_pos hnew0, hr1, if_pos hnew0, if_neg (by simp : ¬((0 : Addr) ≠ 0)), hrev]
  · intro hnew0 hfindN
    simp only [sccp_refcount_replace, retain_not_found s newPtr hfindN]
    rw [if_pos hnew0, if_neg (by simp : ¬((0 : Addr) ≠ 0))]
  · intro hold hfindN
    have hnew0 : newPtr ≠ 0 := (find_anatomy s newPtr o hfindN).1
    obtain ⟨hr1, hrev, hrfind, hrpres, -, -, -⟩ := retain_found s newPtr o hfindN
    have hrepl : sccp_refcount_replace s (some oldPtr) newPtr =
        (some newPtr,
          (sccp_refcount_release (sccp_refcount_retain s newPtr).2.1 oldPtr).2.1,
          Event.retainEv newPtr ::
            (sccp_refcount_release (sccp_refcount_retain s newPtr).2.1 oldPtr).2.2) := by
      simp only [sccp_refcount_replace]
      rw [if_pos hnew0, hr1, if_pos hnew0, if_pos hold, hrev, List.singleton_append]
    refine ⟨by rw [hrepl], by rw [hrepl], by rw [hrepl], ?_, ?_⟩
    · rw [hrepl]
      have hWF1 : WF (sccp_refcount_retain s newPtr).2.1 := WF_retain s newPtr hWF
      rw [release_pres _ oldPtr newPtr hWF1 hne]
      exact hrfind
    · intro oo hfindOld
      have hold2 : sccp_refcount_find_obj (sccp_refcount_retain s newPtr).2.1 oldPtr =
          some oo := by
        rw [hrpres oldPtr (fun hh => hne hh.symm)]
        exact hfindOld
      obtain ⟨evs, hevs⟩ :=
        releaseEv_head (sccp_refcount_retain s newPtr).2.1 oldPtr oo hold2
      refine ⟨(sccp_refcount_release (sccp_refcount_retain s newPtr).2.1 oldPtr).2.2,
        by rw [hrepl], ?_⟩
      rw [hevs]
      exact List.mem_cons_self _ _
  · intro hnew0 hold
    subst hnew0
    simp only [sccp_refcount_replace]
    rw [if_neg (by simp : ¬((0 : Addr) ≠ 0)), if_pos hold, release_null]

/-- C7: a successful allocation while running returns the payload pointer,
stores at the head of the bucket selected by the payload address modulo
the prime a header with refcount 1, the live alive marker, the identifier
truncated to the fixed bound and the requested type and size; the new
object is immediately reachable by lookup; the destructor argument is
registered for the type only when none is registered yet, a later
different destructor being ignored (first registration wins); the run
state and every other bucket are untouched. -/
theorem C7_alloc_contract (s : Registry) (size ty : Nat) (identifier : String)
    (destructor : Option Nat) (paddr : Addr)
    (hrun : s.runState = RunState.running) (hty : ty < s.dtors.length) :
    (sccp_refcount_object_alloc s size ty identifier destructor paddr).1 = paddr ∧
    tableGet (sccp_refcount_object_alloc s size ty identifier destructor paddr).2.1.objects
        (paddr % SCCP_HASH_PRIME) =
      some ({ refcount := 1, type := ty, identifier := truncId identifier, len := size,
              alive := SCCP_LIVE_MARKER, data := paddr } ::
        (tableGet s.objects (paddr % SCCP_HASH_PRIME)).getD []) ∧
    (paddr ≠ 0 →
      sccp_refcount_find_obj
          (sccp_refcount_object_alloc s size ty identifier destructor paddr).2.1 paddr =
        some { refcount := 1, type := ty, identifier := truncId identifier, len := size,
               alive := SCCP_LIVE_MARKER, data := paddr }) ∧
    (dtorAt s.dtors ty = none →
      dtorAt (sccp_refcount_object_alloc s size ty identifier destructor paddr).2.1.dtors ty =
        destructor) ∧
    (∀ d0, dtorAt s.dtors ty = some d0 →
      (sccp_refcount_object_alloc s size ty identifier destructor paddr).2.1.dtors =
        s.dtors) ∧
    (sccp_refcount_object_alloc s size ty identifier destructor paddr).2.1.runState =
      s.runState ∧
    (∀ h', h' ≠ paddr % SCCP_HASH_PRIME →
      tableGet
          (sccp_refcount_object_alloc s size ty identifier destructor paddr).2.1.objects h' =
        tableGet s.objects h') := by
  have hns : ¬ (s.runState = RunState.stopped) := by
    rw [hrun]
    simp
  have halloc : sccp_refcount_object_alloc s size ty identifier destructor paddr =
      (paddr,
        { s with
            dtors := if dtorAt s.dtors ty = none then dtorSet s.dtors ty destructor
              else s.dtors,
            objects := tableSet s.objects (paddr % SCCP_HASH_PRIME)
              ({ refcount := 1, type := ty, identifier := truncId identifier, len := size,
                 alive := SCCP_LIVE_MARKER, data := paddr } ::
                (tableGet s.objects (paddr % SCCP_HASH_PRIME)).getD []) },
        [Event.constructed ty paddr]) := by
    rcases hg : tableGet s.objects (paddr % SCCP_HASH_PRIME) with _ | b
    · simp only [sccp_refcount_object_alloc, hg, Option.getD]
      rw [if_neg hns]
    · simp only [sccp_refcount_object_alloc, hg, Option.getD]
      rw [if_neg hns]
  rw [halloc]
  refine ⟨rfl, tableGet_set_self _ _ _, ?_, ?_, ?_, rfl, ?_⟩
  · intro hp
    simp [sccp_refcount_find_obj, hp, tableGet_set_self, findInBucket]
  · intro hd0
    show dtorAt (if dtorAt s.dtors ty = none then dtorSet s.dtors ty destructor
      else s.dtors) ty = destructor
    rw [if_pos hd0]
    exact dtorAt_dtorSet_self s.dtors ty destructor hty
  · intro d0 hd0
    show (if dtorAt s.dtors ty = none then dtorSet s.dtors ty destructor
      else s.dtors) = s.dtors
    rw [if_neg (by rw [hd0]; simp)]
  · intro h' hne
    exact tableGet_set_ne _ _ _ _ hne

/-- C8: lookup resolves an address to a header exactly when the bucket
selected by the address modulo the prime table size holds an entry whose
payload address equals the argument and whose alive field carries the live
marker; an address-matching entry without the live marker makes lookup
report the address as absent even though the entry still sits in the
bucket. -/
theorem C8_lookup_contract (s : Registry) (p : Addr) (hWF : WF s) :
    (∀ o : RefCountedObject, sccp_refcount_find_obj s p = some o ↔
      ∃ b, tableGet s.objects (p % SCCP_HASH_PRIME) = some b ∧
        o ∈ b ∧ o.data = p ∧ o.alive = SCCP_LIVE_MARKER) ∧
    (∀ b x, tableGet s.objects (p % SCCP_HASH_PRIME) = some b → x ∈ b → x.data = p →
      x.alive ≠ SCCP_LIVE_MARKER → sccp_refcount_find_obj s p = none) := by
  constructor
  · intro o
    constructor
    · intro hfind
      obtain ⟨hp, u, v, hg, hu, ho, ha⟩ := find_anatomy s p o hfind
      exact ⟨u ++ o :: v, hg, by simp, ho, ha⟩
    · rintro ⟨b, hg, hmem, ho, ha⟩
      have hp : p ≠ 0 := by
        have hprops := (hWF.2 _ (tableGet_mem hg)).1 o hmem
        exact fun h0 => hprops.1 (ho.trans h0)
      have hdist := (hWF.2 _ (tableGet_mem hg)).2
      have hfb := findInBucket_of_mem p b o hdist hmem ho
      rw [if_pos ha] at hfb
      simp only [sccp_refcount_find_obj, if_neg hp, hg]
      exact hfb
  · intro b x hg hmem hx hxa
    have hp : p ≠ 0 := by
      have hprops := (hWF.2 _ (tableGet_mem hg)).1 x hmem
      exact fun h0 => hprops.1 (hx.trans h0)
    have hdist := (hWF.2 _ (tableGet_mem hg)).2
    have hfb := findInBucket_of_mem p b x hdist hmem hx
    rw [if_neg hxa] at hfb
    simp only [sccp_refcount_find_obj, if_neg hp, hg]
    exact hfb

end SCCP

namespace SCCP

theorem retainN_chain (p : Addr) :
    ∀ (n : Nat) (s : Registry) (o : RefCountedObject),
      sccp_refcount_find_obj s p = some o →
      (retainN s p n).2 = true ∧
      sccp_refcount_find_obj (retainN s p n).1 p =
        some { o with refcount := o.refcount + (n : Int) } := by
  intro n
  induction n with
  | zero =>
    intro s o hfind
    refine ⟨rfl, ?_⟩
    show sccp_refcount_find_obj s p = some { o with refcount := o.refcount + ((0 : Nat) : Int) }
    have h0 : o.refcount + ((0 : Nat) : Int) = o.refcount := by
      push_cast
      ring
    rw [h0]
    exact hfind
  | succ n ih =>
    intro s o hfind
    obtain ⟨hr1, -, hrfind, -, -, -, -⟩ := retain_found s p o hfind
    obtain ⟨hok, hfind2⟩ := ih (sccp_refcount_retain s p).2.1 _ hrfind
    constructor
    · show (((sccp_refcount_retain s p).1 == p) &&
        (retainN (sccp_refcount_retain s p).2.1 p n).2) = true
      rw [hr1, hok]
      simp
    · have harith : o.refcount + 1 + (n : Int) = o.refcount + ((n + 1 : Nat) : Int) := by
        push_cast
        ring
      show sccp_refcount_find_obj (retainN (sccp_refcount_retain s p).2.1 p n).1 p =
        some { o with refcount := o.refcount + ((n + 1 : Nat) : Int) }
      rw [← harith]
      exact hfind2

theorem releaseN_chain (p : Addr) :
    ∀ (k : Nat) (s : Registry) (o : RefCountedObject),
      sccp_refcount_find_obj s p = some o → o.refcount = 1 + (k : Int) →
      sccp_refcount_find_obj (releaseN s p k) p = some { o with refcount := 1 } := by
  intro k
  induction k with
  | zero =>
    intro s o hfind hrc
    show sccp_refcount_find_obj s p = some { o with refcount := (1 : Int) }
    have h0 : (1 : Int) = o.refcount := by
      push_cast at hrc
      omega
    rw [h0]
    exact hfind
  | succ k ih =>
    intro s o hfind hrc
    have hne : o.refcount - 1 ≠ 0 := by
      push_cast at hrc
      omega
    obtain ⟨-, -, hfind2, -, -, -, -⟩ := release_pos s p o hfind hne
    have hrc2 : ({ o with refcount := o.refcount - 1 } : RefCountedObject).refcount =
        1 + (k : Int) := by
      show o.refcount - 1 = 1 + (k : Int)
      push_cast at hrc
      omega
    have hrest := ih (sccp_refcount_release s p).2.1 _ hfind2 hrc2
    show sccp_refcount_find_obj (releaseN (sccp_refcount_release s p).2.1 p k) p =
      some { o with refcount := (1 : Int) }
    exact hrest

/-- C9: for every number N of rounds, on a freshly reachable object with
refcount 1, N retains each return the same payload pointer and raise the
refcount to 1 + N, and the N releases that follow bring the object back to
exactly its original header: still alive, still reachable by lookup, with
refcount 1. -/
theorem C9_balanced_retain_release (s : Registry) (p : Addr) (o : RefCountedObject) (n : Nat)
    (hfind : sccp_refcount_find_obj s p = some o) (h1 : o.refcount = 1) :
    (retainN s p n).2 = true ∧
    sccp_refcount_find_obj (retainN s p n).1 p =
      some { o with refcount := 1 + (n : Int) } ∧
    sccp_refcount_find_obj (releaseN (retainN s p n).1 p n) p = some o := by
  obtain ⟨hok, hfindN⟩ := retainN_chain p n s o hfind
  have hrec : ({ o with refcount := o.refcount + (n : Int) } : RefCountedObject) =
      { o with refcount := 1 + (n : Int) } := by
    rw [h1]
  have hfindN' : sccp_refcount_find_obj (retainN s p n).1 p =
      some { o with refcount := 1 + (n : Int) } := by
    rw [hfindN, hrec]
  refine ⟨hok, hfindN', ?_⟩
  have hrc : ({ o with refcount := 1 + (n : Int) } : RefCountedObject).refcount =
      1 + (n : Int) := rfl
  have hrest := releaseN_chain p n (retainN s p n).1 _ hfindN' hrc
  have heq : ({ o with refcount := (1 : Int) } : RefCountedObject) = o := by
    rw [← h1]
  exact hrest.trans (congrArg some heq)

end SCCP

namespace SCCP

/-- Registry after init and one allocation: a single live channel object
(type tag 3, destructor id 7) at payload address 564; 564 mod 563 = 1, so
the object sits in bucket 1 and bucket slot 0 is never created. -/
def regB : Registry :=
  (sccp_refcount_object_alloc (sccp_refcount_init Registry.initial) 40 3 "B" (some 7) 564).2.1

/-- The header of that object while its refcount is 1. -/
def objB : RefCountedObject :=
  { refcount := 1, type := 3, identifier := "B", len := 40, alive := SCCP_LIVE_MARKER,
    data := 564 }

/-- regB after one extra retain: refcount 2, never fully released (the
leaked-object scenario of the spec). -/
def regB2 : Registry := (sccp_refcount_retain regB 564).2.1

/-- The registry sccp_refcount_destroy leaves behind when run on regB. -/
def regAfterShutdown : Registry := (sccp_refcount_destroy regB).1

/-- regB with a second live object "C" at payload address 565 (bucket 2),
same type. -/
def regBC : Registry :=
  (sccp_refcount_object_alloc regB 40 3 "C" (some 7) 565).2.1

/-- The header of object "C" while its refcount is 1. -/
def objC : RefCountedObject :=
  { refcount := 1, type := 3, identifier := "C", len := 40, alive := SCCP_LIVE_MARKER,
    data := 565 }

/-- C3: the claim fails on the code.  sccp_refcount_retain performs no
run-state check at all, and the shutdown drain loop stops at the first
NULL bucket slot, so after init, one allocation at an address hashing to
bucket 1 (bucket 0 stays NULL) and sccp_refcount_destroy, the registry is
in the Destroyed state yet a retain of the surviving object succeeds: it
returns the payload pointer instead of the null sentinel and raises the
refcount from 1 to 2, mutating registry state. -/
theorem C3_retain_after_shutdown_succeeds :
    regAfterShutdown.runState = RunState.destroyed ∧
    (sccp_refcount_retain regAfterShutdown 564).1 = 564 ∧
    sccp_refcount_find_obj (sccp_refcount_retain regAfterShutdown 564).2.1 564 =
      some { objB with refcount := 2 } ∧
    (sccp_refcount_retain regAfterShutdown 564).2.1 ≠ regAfterShutdown := by
  decide

/-- C4: the claim fails on the code.  The drain loop of
sccp_refcount_destroy runs `for (hash = 0; hash < SCCP_HASH_PRIME &&
objects[hash]; hash++)`, terminating at the first NULL bucket slot, so on
a registry holding exactly one leaked object (refcount 2) in bucket 1
while bucket 0 was never created, it force-destroys nothing: the logged
count is 0 instead of 1, no destructor fires, and the object is still
registered in its bucket after the state has moved to Destroyed. -/
theorem C4_shutdown_drain_misses_leak :
    (sccp_refcount_destroy regB2).2.1 = 0 ∧
    (sccp_refcount_destroy regB2).2.2 = [] ∧
    (sccp_refcount_destroy regB2).1.runState = RunState.destroyed ∧
    tableGet (sccp_refcount_destroy regB2).1.objects 1 =
      some [{ objB with refcount := 2 }] := by
  decide

/-- C5: the claim fails on the code.  The self-replace guard of
sccp_refcount_replace compares the address of its own value parameter
with the slot pointer (`&newptr == replaceptr`), which no call can
satisfy, so replacing a slot by the value it already holds is not short
circuited: a retain of the value and then a release of it are executed
(both visible as audit events), even though the net effect leaves the
slot and the whole registry exactly as they were. -/
theorem C5_self_replace_executes_retain_release :
    (sccp_refcount_replace regB (some 564) 564).2.2 =
      [Event.retainEv 564, Event.releaseEv 564] ∧
    (sccp_refcount_replace regB (some 564) 564).1 = some 564 ∧
    (sccp_refcount_replace regB (some 564) 564).2.1 = regB := by
  decide

theorem C1_witness :
    WF regB ∧ sccp_refcount_find_obj regB 564 = some objB ∧
    dtorAt regB.dtors objB.type = some 7 ∧
    (sccp_refcount_release regB 564).2.2 =
      [Event.releaseEv 564, Event.aliveFlip 564, Event.destructorCall 7 3 564] ∧
    dtorCallCount (sccp_refcount_release regB 564).2.2 564 = 1 ∧
    sccp_refcount_retain (sccp_refcount_release regB 564).2.1 564 =
      (0, (sccp_refcount_release regB 564).2.1, []) := by
  have h := C1_destructor_exactly_once regB 564 objB 7 (by decide) (by decide) (by decide)
  obtain ⟨h1, -⟩ := h
  obtain ⟨ha, hb, hc, -⟩ := h1 (by decide)
  exact ⟨by decide, by decide, by decide, ha, hb, hc⟩

theorem C2_witness :
    (sccp_refcount_release regB2 564).1 = 0 ∧
    (sccp_refcount_release regB2 564).2.2 = [Event.releaseEv 564] ∧
    sccp_refcount_find_obj (sccp_refcount_release regB2 564).2.1 564 =
      some { objB with refcount := 1 } := by
  have h := C2_release_contract regB2 564
    { refcount := 2, type := 3, identifier := "B", len := 40, alive := SCCP_LIVE_MARKER,
      data := 564 } (by decide) (by decide)
  obtain ⟨hnull, hpos, -⟩ := h
  obtain ⟨hev, hfind, -⟩ := hpos (by decide)
  refine ⟨hnull regB2 564, hev, ?_⟩
  rw [hfind]
  decide

theorem C6_witness :
    (sccp_refcount_replace regBC (some 564) 565).1 = some 565 ∧
    Event.releaseEv 564 ∈ (sccp_refcount_replace regBC (some 564) 565).2.2 ∧
    sccp_refcount_find_obj (sccp_refcount_replace regBC (some 564) 565).2.1 565 =
      some { objC with refcount := 2 } := by
  have h := C6_replace_order regBC 564 565 objC (by decide) (by decide)
  obtain ⟨-, -, h3, -⟩ := h
  obtain ⟨ha, -, -, hd, hb⟩ := h3 (by decide) (by decide)
  obtain ⟨evs, hevs, hmem⟩ := hb objB (by decide)
  refine ⟨ha, ?_, ?_⟩
  · rw [hevs]
    exact List.mem_cons_of_mem _ hmem
  · rw [hd]
    decide

theorem C7_witness :
    (sccp_refcount_object_alloc regB 40 3 "C" (some 9) 565).1 = 565 ∧
    sccp_refcount_find_obj (sccp_refcount_object_alloc regB 40 3 "C" (some 9) 565).2.1 565 =
      some { refcount := 1, type := 3, identifier := truncId "C", len := 40,
             alive := SCCP_LIVE_MARKER, data := 565 } ∧
    (sccp_refcount_object_alloc regB 40 3 "C" (some 9) 565).2.1.dtors = regB.dtors := by
  have h := C7_alloc_contract regB 40 3 "C" (some 9) 565 (by decide) (by decide)
  obtain ⟨h1, -, h3, -, h5, -, -⟩ := h
  exact ⟨h1, h3 (by decide), h5 7 (by decide)⟩

theorem C8_witness :
    sccp_refcount_find_obj regB 564 = some objB := by
  have h := (C8_lookup_contract regB 564 (by decide)).1 objB
  exact h.mpr ⟨[objB], by decide, by decide, by decide, by decide⟩

theorem C9_witness :
    (retainN regB 564 2).2 = true ∧
    sccp_refcount_find_obj (retainN regB 564 2).1 564 =
      some { objB with refcount := 1 + ((2 : Nat) : Int) } ∧
    sccp_refcount_find_obj (releaseN (retainN regB 564 2).1 564 2) 564 = some objB :=
  C9_balanced_retain_release regB 564 objB 2 (by decide) (by decide)

end SCCP
